import Mathlib

/-!
# Verification of the firestore query-composition and result-materialization layer

Shallow embedding of `gcp_helpers/firestore/collections.py`: the filter and
order-by value objects, the collection / collection-group accessors (modelled
as pure query builders that record the builder calls made on the opaque client
handle), and the `FirestoreResult` / `FirestoreMultiResult` wrappers that shape
retrieved records.

Python dictionaries are modelled as insertion-ordered association lists with
replace-in-place update semantics; Python values as the inductive `PyVal`;
single-pass query streams as a list of snapshots plus a consumption counter.
-/

set_option autoImplicit false

namespace GcpHelpers

/-- A Python value as it occurs in records, filters and shaped results:
`None`, strings, integers, lists and string-keyed dicts. -/
inductive PyVal where
  | pynone
  | str (s : String)
  | int (n : Int)
  | list (xs : List PyVal)
  | dict (xs : List (String × PyVal))

/-- A record mapping (a Python dict), insertion-ordered. -/
abbrev Record := List (String × PyVal)

/-- Lookup `d[k]`: the first binding of `k` (unique once built via `dictSet`). -/
def dictGet (d : Record) (k : String) : Option PyVal :=
  (d.find? (fun kv => kv.1 == k)).map (fun kv => kv.2)

/-- Assignment `d[k] = v`, also `d.update` with a single key: replace the
binding in place if the key is present (Python dicts keep the original
insertion position), else append the new binding at the end. -/
def dictSet (d : Record) (k : String) (v : PyVal) : Record :=
  if d.any (fun kv => kv.1 == k) then
    d.map (fun kv => if kv.1 == k then (k, v) else kv)
  else
    d ++ [(k, v)]

/-- Update `d.update(u)`: apply `dictSet` for each binding of `u` in order. -/
def dictUpdate (d : Record) (u : Record) : Record :=
  u.foldl (fun acc kv => dictSet acc kv.1 kv.2) d

theorem find_map_replace_self (d : Record) (k : String) (v : PyVal)
    (h : d.any (fun kv => kv.1 == k) = true) :
    (d.map (fun kv => if kv.1 == k then (k, v) else kv)).find?
      (fun kv => kv.1 == k) = some (k, v) := by
  induction d with
  | nil => simp at h
  | cons kv tl ih =>
    rw [List.map_cons]
    by_cases h1 : kv.1 = k
    · have e1 : (if (kv.1 == k) = true then (k, v) else kv) = (k, v) := by simp [h1]
      rw [e1, List.find?_cons_of_pos _ (by simp)]
    · have e1 : (if (kv.1 == k) = true then (k, v) else kv) = kv := by simp [h1]
      have h2 : tl.any (fun kv => kv.1 == k) = true := by
        simpa [List.any_cons, h1] using h
      rw [e1, List.find?_cons_of_neg _ (by simp [h1])]
      exact ih h2

theorem find_map_replace_ne (d : Record) (k k' : String) (v : PyVal)
    (h : ¬ k = k') :
    (d.map (fun kv => if kv.1 == k then (k, v) else kv)).find?
      (fun kv => kv.1 == k') = d.find? (fun kv => kv.1 == k') := by
  induction d with
  | nil => rfl
  | cons kv tl ih =>
    rw [List.map_cons]
    by_cases h1 : kv.1 = k
    · have e1 : (if (kv.1 == k) = true then (k, v) else kv) = (k, v) := by simp [h1]
      have h2 : ¬ kv.1 = k' := h1 ▸ h
      rw [e1, List.find?_cons_of_neg _ (by simp [h]),
        List.find?_cons_of_neg _ (by simp [h2])]
      exact ih
    · have e1 : (if (kv.1 == k) = true then (k, v) else kv) = kv := by simp [h1]
      rw [e1]
      by_cases h2 : kv.1 = k'
      · rw [List.find?_cons_of_pos _ (by simp [h2]),
          List.find?_cons_of_pos _ (by simp [h2])]
      · rw [List.find?_cons_of_neg _ (by simp [h2]),
          List.find?_cons_of_neg _ (by simp [h2])]
        exact ih

theorem dictGet_dictSet_self (d : Record) (k : String) (v : PyVal) :
    dictGet (dictSet d k v) k = some v := by
  by_cases h : d.any (fun kv => kv.1 == k) = true
  · rw [dictGet, dictSet, if_pos h, find_map_replace_self d k v h]
    rfl
  · have hnone : d.find? (fun kv => kv.1 == k) = none := by
      rw [List.find?_eq_none]
      intro a ha hpa
      exact h (List.any_eq_true.mpr ⟨a, ha, hpa⟩)
    have h1 : [(k, v)].find? (fun kv => kv.1 == k) = some (k, v) := by simp
    rw [dictGet, dictSet, if_neg h, List.find?_append, hnone, h1]
    rfl

theorem dictGet_dictSet_ne (d : Record) (k k' : String) (v : PyVal)
    (h : ¬ k = k') :
    dictGet (dictSet d k v) k' = dictGet d k' := by
  by_cases hmem : d.any (fun kv => kv.1 == k) = true
  · rw [dictGet, dictGet, dictSet, if_pos hmem, find_map_replace_ne d k k' v h]
  · have h1 : [(k, v)].find? (fun kv => kv.1 == k') = none := by simp [h]
    rw [dictGet, dictGet, dictSet, if_neg hmem, List.find?_append, h1]
    cases d.find? (fun kv => kv.1 == k') <;> rfl

/-- A retrieved document snapshot: its id, its record mapping (`to_dict()`),
and its `exists` flag (`False` only for a point `get` on an absent path). -/
structure DocumentSnapshot where
  id : String
  record : Record
  exists_ : Bool

/-- Class `FirestoreResult`: wraps one retrieved document snapshot. -/
structure FirestoreResult where
  doc : DocumentSnapshot

/-- Method `FirestoreResult.dict(append_id)`: the record mapping, with the id injected
under `docId` when `append_id` is true (`doc.update` with key `docId`). -/
def FirestoreResult.dict (r : FirestoreResult) (append_id : Bool) : Record :=
  let doc := r.doc.record
  if append_id then dictUpdate doc [("docId", PyVal.str r.doc.id)] else doc

/-- A caller-supplied type used for projection: calling `class_ref(**item)`
either returns the constructed instance or raises (`TypeError` or any other
exception), modelled as `Except`. -/
abbrev ClassRef := Record → Except String PyVal

/-- Method `FirestoreResult.to_class(class_ref)`: construction failures (`TypeError`
or any other exception) are caught, logged and converted to `None`. -/
def FirestoreResult.to_class (r : FirestoreResult) (class_ref : ClassRef) :
    Option PyVal :=
  match class_ref (r.dict true) with
  | .ok v => some v
  | .error _ => none

/-- Class `FirestoreMultiResult`: holds the materialized snapshot list `self.raw`
(filled by `_to_raw` in `__init__`). -/
structure FirestoreMultiResult where
  raw : List DocumentSnapshot

/-- The loop body of `FirestoreMultiResult.to_list`: per snapshot, take
`doc.to_dict()`, inject `docId` when `append_id`, then either construct
`class_ref(**item)` (whose exception, if any, propagates — there is no
`try`/`except` here) or append the raw item. -/
def toListLoop (docs : List DocumentSnapshot) (append_id : Bool)
    (class_ref : Option ClassRef) : Except String (List PyVal) :=
  match docs with
  | [] => .ok []
  | doc :: rest => do
    let item := doc.record
    let item := if append_id then dictSet item "docId" (PyVal.str doc.id) else item
    let entry ← match class_ref with
      | some c => c item
      | none => pure (PyVal.dict item)
    let tail ← toListLoop rest append_id class_ref
    pure (entry :: tail)

/-- Method `FirestoreMultiResult.to_list(append_id, class_ref)`. -/
def FirestoreMultiResult.to_list (m : FirestoreMultiResult) (append_id : Bool)
    (class_ref : Option ClassRef) : Except String (List PyVal) :=
  toListLoop m.raw append_id class_ref

/-- The loop body of `FirestoreMultiResult.to_dict`: per snapshot, build
the singleton mapping from `docId` to `doc.to_dict()`, inject `docId` into the inner mapping when
`append_id`, then `res.update(item)`. -/
def toDictLoop (docs : List DocumentSnapshot) (append_id : Bool)
    (res : Record) : Record :=
  match docs with
  | [] => res
  | doc :: rest =>
    let docId := doc.id
    let inner := doc.record
    let inner := if append_id then dictSet inner "docId" (PyVal.str doc.id) else inner
    toDictLoop rest append_id (dictUpdate res [(docId, PyVal.dict inner)])

/-- Method `FirestoreMultiResult.to_dict(append_id, class_ref)`: note the source
accepts `class_ref` but never reads it. -/
def FirestoreMultiResult.to_dict (m : FirestoreMultiResult) (append_id : Bool)
    (class_ref : Option ClassRef) : Record :=
  toDictLoop m.raw append_id []

/-- A single-pass query stream: its items plus how many times it has been
iterated (a generator yields its items on the first pass only). -/
structure DocStream where
  items : List DocumentSnapshot
  passes : Nat

/-- Iterate the stream once: the first pass yields the items, any later pass
yields nothing. -/
def DocStream.consume (s : DocStream) : List DocumentSnapshot × DocStream :=
  (if s.passes = 0 then s.items else [], { s with passes := s.passes + 1 })

/-- Constructor `FirestoreMultiResult.__init__(stream)`: stores the stream and
materializes it into `self.raw` via `_to_raw` (the one and only iteration of
the stream). -/
def FirestoreMultiResult.init (s : DocStream) : FirestoreMultiResult × DocStream :=
  let (docs, s1) := s.consume
  ({ raw := docs }, s1)

/-- A shaping call on a `FirestoreMultiResult`. -/
inductive MRCall where
  | listCall (append_id : Bool) (class_ref : Option ClassRef)
  | dictCall (append_id : Bool) (class_ref : Option ClassRef)

/-- The output of a shaping call. -/
inductive MROutput where
  | listOut (r : Except String (List PyVal))
  | dictOut (r : Record)

/-- Dispatch one shaping call: both method bodies read `self.raw` only. -/
def runCall (m : FirestoreMultiResult) : MRCall → MROutput
  | .listCall b c => .listOut (m.to_list b c)
  | .dictCall b c => .dictOut (m.to_dict b c)

/-- Run a sequence of shaping calls, threading the stream world: the method
bodies never touch `self._stream` again, so it passes through unchanged. -/
def runCalls (calls : List MRCall) (m : FirestoreMultiResult) (w : DocStream) :
    List MROutput × DocStream :=
  match calls with
  | [] => ([], w)
  | c :: cs =>
    let out := runCall m c
    let (outs, w1) := runCalls cs m w
    (out :: outs, w1)

/-- Constant `firestore.Query.ASCENDING`. -/
def FirestoreQuery.ASCENDING : String := "ASCENDING"

/-- Constant `firestore.Query.DESCENDING`. -/
def FirestoreQuery.DESCENDING : String := "DESCENDING"

/-- Class `FirestoreOrderBy`: a (field path, direction) pair. -/
structure FirestoreOrderBy where
  field_path : String
  direction : String

/-- The operator allowlist `FirestoreFilter.ALLOWED_OP`. -/
def ALLOWED_OP : List String :=
  ["<", "<=", "==", ">", ">=", "!=", "array-contains", "array-contains-any",
   "in", "not-in"]

/-- A constructed `FirestoreFilter`: in the source it is a `list` subclass
holding exactly the three elements `[field, op, value]`. -/
structure FirestoreFilter where
  fieldName : String
  op : String
  value : PyVal

/-- The underlying Python list content `[field, op, value]` of a filter. -/
def FirestoreFilter.toList (f : FirestoreFilter) : List PyVal :=
  [PyVal.str f.fieldName, PyVal.str f.op, f.value]

/-- Constructor `FirestoreFilter.__init__(field, op, value)`: raise `ValueError` when `op`
is not in the allowlist, otherwise build the list `[field, op, value]`. -/
def FirestoreFilter.init (fieldName op : String) (value : PyVal) :
    Except String FirestoreFilter :=
  if op ∉ ALLOWED_OP then
    .error ("ValueError: op must be one of " ++ String.intercalate ", " ALLOWED_OP)
  else
    .ok ⟨fieldName, op, value⟩

/-- Named constructor `FirestoreFilter.equal`. -/
def FirestoreFilter.equal (field_name : String) (value : PyVal) :
    Except String FirestoreFilter :=
  FirestoreFilter.init field_name "==" value

/-- One builder call recorded against the opaque client query handle. -/
inductive QueryOp where
  | whereClause (args : List PyVal)
  | orderByClause (field_path : String) (direction : String)
  | limitClause (n : Int)

/-- Python `*x` argument splatting: a string iterates into its characters, a
list into its elements, a dict into its keys; other values raise `TypeError`. -/
def starSplat : PyVal → Except String (List PyVal)
  | .str s => .ok (s.toList.map (fun ch => PyVal.str (String.mk [ch])))
  | .list xs => .ok xs
  | .dict xs => .ok (xs.map (fun kv => PyVal.str kv.1))
  | _ => .error "TypeError: argument after * must be an iterable"

/-- The `filter_query` argument of `search`: absent (`None`), a single
`FirestoreFilter`, or a plain list of `FirestoreFilter`s. -/
inductive FilterArg where
  | noneArg
  | single (f : FirestoreFilter)
  | listArg (fs : List FirestoreFilter)

/-- Method `FirestoreCollection.search`, modelled as the sequence of builder calls it
compiles against `self._col_ref`. The source checks
`isinstance(filter_query, FirestoreFilter)` first, then
`isinstance(filter_query, list)`; `None` and the empty list are falsy and
skip both branches, and `limit=0` is falsy and skips the limit clause. -/
def FirestoreCollection.search (filter_query : FilterArg)
    (order_by : Option FirestoreOrderBy) (limit : Option Int) : List QueryOp :=
  let whereOps : List QueryOp :=
    match filter_query with
    | .noneArg => []
    | .single f => [QueryOp.whereClause f.toList]
    | .listArg fs =>
      if fs.isEmpty then []
      else fs.map (fun f => QueryOp.whereClause f.toList)
  let obOps : List QueryOp :=
    match order_by with
    | some o => [QueryOp.orderByClause o.field_path o.direction]
    | none => []
  let limOps : List QueryOp :=
    match limit with
    | some n => if n != 0 then [QueryOp.limitClause n] else []
    | none => []
  whereOps ++ obOps ++ limOps

/-- Method `FirestoreCollectionGroup.search`: the source checks
`isinstance(filter_query, list)` BEFORE `isinstance(filter_query, FirestoreFilter)`.
`FirestoreFilter` subclasses `list`, so a single filter satisfies the first
check and takes the list branch: `for f in filter_query` iterates the three
elements `field, op, value`, and `query.where(*f)` splats each of them. The
`elif isinstance(filter_query, FirestoreFilter)` branch is unreachable. -/
def FirestoreCollectionGroup.search (filter_query : FilterArg)
    (order_by : Option FirestoreOrderBy) (limit : Option Int) :
    Except String (List QueryOp) := do
  let whereOps : List QueryOp ←
    match filter_query with
    | .noneArg => pure []
    | .single f =>
      f.toList.mapM (fun x => do
        let args ← starSplat x
        pure (QueryOp.whereClause args))
    | .listArg fs =>
      if fs.isEmpty then pure []
      else pure (fs.map (fun f => QueryOp.whereClause f.toList))
  let obOps : List QueryOp :=
    match order_by with
    | some o => [QueryOp.orderByClause o.field_path o.direction]
    | none => []
  let limOps : List QueryOp :=
    match limit with
    | some n => if n != 0 then [QueryOp.limitClause n] else []
    | none => []
  pure (whereOps ++ obOps ++ limOps)

/-- Method `get_all` compiles no builder call: it streams the collection reference
directly. -/
def FirestoreCollection.get_all : List QueryOp := []

/-- Method `get_all` on a collection group likewise compiles no builder call. -/
def FirestoreCollectionGroup.get_all : List QueryOp := []

/-- The document store as visible through `client.document(path)`. -/
abbrev Store := String → Option Record

/-- Point read `doc_ref.get()` on a full path: a snapshot whose `exists` flag records
presence. -/
def Store.getDoc (store : Store) (path docId : String) : DocumentSnapshot :=
  match store path with
  | some r => ⟨docId, r, true⟩
  | none => ⟨docId, [], false⟩

/-- Method `FirestoreCollectionGroup.get_one(docId, parent_path)`: builds
`f"{parent_path}/{docId}"`, gets that exact reference, and returns a result
only when the snapshot exists. -/
def FirestoreCollectionGroup.get_one (store : Store) (docId parent_path : String) :
    Option FirestoreResult :=
  let doc_path := parent_path ++ "/" ++ docId
  let document := store.getDoc doc_path docId
  if document.exists_ then some ⟨document⟩ else none

/-- Method `FirestoreCollectionGroup.update(docId, parent_path, field_updates)`:
builds `f"{parent_path}/{docId}"` and updates that exact reference; the store
raises `NotFound` when the document is absent, else merges the field updates. -/
def FirestoreCollectionGroup.update (store : Store) (docId parent_path : String)
    (field_updates : Record) : Except String Store :=
  let doc_path := parent_path ++ "/" ++ docId
  match store doc_path with
  | none => .error "NotFound"
  | some r =>
    .ok (fun p => if p = doc_path then some (dictUpdate r field_updates) else store p)

/-- Method `FirestoreCollectionGroup.get_first_from_stream(docId)`: the source caps
the group stream with `.limit(1)` BEFORE filtering, then takes the first
streamed document whose id matches. -/
def FirestoreCollectionGroup.get_first_from_stream
    (stream : List DocumentSnapshot) (docId : String) : Option FirestoreResult :=
  let query := stream.take 1
  match query.find? (fun doc => doc.id == docId) with
  | some document => if document.exists_ then some ⟨document⟩ else none
  | none => none

/-- The shaped item a `to_list` iteration builds and, with a `class_ref`,
passes to the constructor: the record with `docId` injected when requested. -/
def shapedItem (doc : DocumentSnapshot) (append_id : Bool) : Record :=
  if append_id then dictSet doc.record "docId" (PyVal.str doc.id) else doc.record

/-- C6: for every field and value and every operator in the allowlist,
`FirestoreFilter(field, op, value)` succeeds and exposes `(field, op, value)`
in that order as its list content; for every operator outside the allowlist,
construction fails immediately with the `ValueError`, so no partially-built
filter escapes. -/
theorem c6_filter_allowlist (fieldName op : String) (value : PyVal) :
    (op ∈ ALLOWED_OP →
      FirestoreFilter.init fieldName op value = .ok ⟨fieldName, op, value⟩ ∧
      (FirestoreFilter.mk fieldName op value).toList =
        [PyVal.str fieldName, PyVal.str op, value]) ∧
    (op ∉ ALLOWED_OP →
      FirestoreFilter.init fieldName op value =
        .error ("ValueError: op must be one of " ++
          String.intercalate ", " ALLOWED_OP)) := by
  constructor
  · intro h
    exact ⟨by simp [FirestoreFilter.init, h], rfl⟩
  · intro h
    simp [FirestoreFilter.init, h]

/-- C6 witness: the valid operator `"=="` builds `["name", "==", "Alice"]`;
the invalid operator `"equals"` fails construction. -/
theorem c6_filter_allowlist_witness :
    FirestoreFilter.init "name" "==" (PyVal.str "Alice") =
      .ok ⟨"name", "==", PyVal.str "Alice"⟩ ∧
    FirestoreFilter.init "name" "equals" (PyVal.str "Alice") =
      .error ("ValueError: op must be one of " ++
        String.intercalate ", " ALLOWED_OP) :=
  ⟨((c6_filter_allowlist "name" "==" (PyVal.str "Alice")).1 (by decide)).1,
   (c6_filter_allowlist "name" "equals" (PyVal.str "Alice")).2 (by decide)⟩

/-- C1: `FirestoreCollection.search` compiles the single filter
`Filter("name", "==", "Alice")` into one where clause, but
`FirestoreCollectionGroup.search` checks `isinstance(filter_query, list)`
first — and a `FirestoreFilter` is a `list` subclass — so it iterates the
triple and splats each element into its own `where` call, producing three
character-wise clauses; with the non-iterable value in
`Filter("age", ">", 30)` the group variant raises `TypeError`. The two
builders do not follow the same rules for a single filter. -/
theorem c1_group_search_diverges :
    FirestoreCollection.search
        (.single ⟨"name", "==", PyVal.str "Alice"⟩) none none =
      [QueryOp.whereClause
        [PyVal.str "name", PyVal.str "==", PyVal.str "Alice"]] ∧
    FirestoreCollectionGroup.search
        (.single ⟨"name", "==", PyVal.str "Alice"⟩) none none =
      .ok [QueryOp.whereClause
             [PyVal.str "n", PyVal.str "a", PyVal.str "m", PyVal.str "e"],
           QueryOp.whereClause [PyVal.str "=", PyVal.str "="],
           QueryOp.whereClause
             [PyVal.str "A", PyVal.str "l", PyVal.str "i",
              PyVal.str "c", PyVal.str "e"]] ∧
    FirestoreCollectionGroup.search
        (.single ⟨"age", ">", PyVal.int 30⟩) none none =
      .error "TypeError: argument after * must be an iterable" :=
  ⟨rfl, rfl, rfl⟩

/-- C10: `search` treats falsy arguments as absent, for both the collection
and the collection-group variant: an empty filter list compiles no where
clause (the built query equals `get_all`'s), and `limit=0` compiles no limit
clause. -/
theorem c10_falsy_args (ob : Option FirestoreOrderBy) (lim : Option Int)
    (fq : FilterArg) :
    FirestoreCollection.search (.listArg []) ob lim =
      FirestoreCollection.search .noneArg ob lim ∧
    FirestoreCollection.search fq ob (some 0) =
      FirestoreCollection.search fq ob none ∧
    FirestoreCollection.search (.listArg []) none (some 0) =
      FirestoreCollection.get_all ∧
    FirestoreCollectionGroup.search (.listArg []) ob lim =
      FirestoreCollectionGroup.search .noneArg ob lim ∧
    FirestoreCollectionGroup.search fq ob (some 0) =
      FirestoreCollectionGroup.search fq ob none ∧
    FirestoreCollectionGroup.search (.listArg []) none (some 0) =
      .ok FirestoreCollectionGroup.get_all := by
  refine ⟨rfl, ?_, rfl, rfl, ?_, rfl⟩
  · cases fq <;> simp [FirestoreCollection.search]
  · cases fq <;> simp [FirestoreCollectionGroup.search]

theorem toListLoop_none (docs : List DocumentSnapshot) (b : Bool) :
    toListLoop docs b none =
      .ok (docs.map (fun doc => PyVal.dict (shapedItem doc b))) := by
  induction docs with
  | nil => rfl
  | cons doc rest ih => simp [toListLoop, ih, shapedItem]

/-- C7: for every sequence of retrieved records, `to_list(append_id=true)`
yields exactly one entry per record, in the query's result order, and each
entry carries a `docId` key equal to that record's id. -/
theorem c7_to_list_append_id (raw : List DocumentSnapshot) :
    ∃ l : List PyVal,
      FirestoreMultiResult.to_list ⟨raw⟩ true none = .ok l ∧
      l.length = raw.length ∧
      ∀ i : Fin raw.length,
        ∃ r : Record, l[i.1]? = some (PyVal.dict r) ∧
          dictGet r "docId" = some (PyVal.str (raw.get i).id) := by
  refine ⟨_, toListLoop_none raw true, by simp, ?_⟩
  intro i
  refine ⟨shapedItem (raw.get i) true, ?_, ?_⟩
  · simp [List.getElem?_map]
  · simp [shapedItem, dictGet_dictSet_self]

theorem toListLoop_error_propagates (pre : List DocumentSnapshot)
    (doc : DocumentSnapshot) (rest : List DocumentSnapshot) (b : Bool)
    (c : ClassRef) (e : String)
    (hpre : ∀ d ∈ pre, (c (shapedItem d b)).isOk = true)
    (hdoc : c (shapedItem doc b) = .error e) :
    toListLoop (pre ++ doc :: rest) b (some c) = .error e := by
  induction pre with
  | nil =>
    rw [List.nil_append]
    simp [toListLoop, shapedItem] at hdoc ⊢
    rw [hdoc]
    rfl
  | cons d tl ih =>
    obtain ⟨v, hv⟩ : ∃ v, c (shapedItem d b) = .ok v := by
      have hok := hpre d (by simp)
      cases hcv : c (shapedItem d b) with
      | error err => rw [hcv] at hok; simp [Except.isOk, Except.toBool] at hok
      | ok v => exact ⟨v, rfl⟩
    have htl : toListLoop (tl ++ doc :: rest) b (some c) = .error e :=
      ih (fun x hx => hpre x (by simp [hx]))
    simp [toListLoop, shapedItem] at hv ⊢
    rw [hv, htl]
    rfl

/-- C3: refuted — `to_list` with a `class_ref` has no `try`/`except`: the
first construction failure propagates out of the whole call, so the batch is
aborted (here the second record fails and no list is produced at all). -/
theorem c3_counterexample :
    FirestoreMultiResult.to_list
        ⟨[⟨"a", [("name", PyVal.str "Alice")], true⟩,
          ⟨"b", [("name", PyVal.int 7)], true⟩]⟩ true
        (some (fun r => match dictGet r "name" with
          | some (PyVal.str s) => .ok (PyVal.list [PyVal.str s])
          | _ => .error "TypeError: unexpected argument")) =
      .error "TypeError: unexpected argument" := rfl

/-- C3 amended: in `MultiResult.to_list` with a caller type, a construction
failure is NOT caught: if `class_ref` succeeds on every record before `doc`
and fails on `doc`, the whole call raises that failure and the remaining
records are not processed. Only `Result.to_class` converts failures to null. -/
theorem c3_amended_to_list_propagates (pre : List DocumentSnapshot)
    (doc : DocumentSnapshot) (rest : List DocumentSnapshot) (b : Bool)
    (c : ClassRef) (e : String)
    (hpre : ∀ d ∈ pre, (c (shapedItem d b)).isOk = true)
    (hdoc : c (shapedItem doc b) = .error e) :
    FirestoreMultiResult.to_list ⟨pre ++ doc :: rest⟩ b (some c) = .error e :=
  toListLoop_error_propagates pre doc rest b c e hpre hdoc

/-- C3 amended, witness: a three-record batch whose middle record fails
construction aborts with that error. -/
theorem c3_amended_to_list_propagates_witness :
    FirestoreMultiResult.to_list
        ⟨[⟨"a", [("name", PyVal.str "Alice")], true⟩] ++
          (⟨"b", [("name", PyVal.int 7)], true⟩ : DocumentSnapshot) ::
          [⟨"c", [("name", PyVal.str "Carol")], true⟩]⟩ true
        (some (fun r => match dictGet r "name" with
          | some (PyVal.str s) => .ok (PyVal.list [PyVal.str s])
          | _ => .error "TypeError: unexpected argument")) =
      .error "TypeError: unexpected argument" :=
  c3_amended_to_list_propagates
    [⟨"a", [("name", PyVal.str "Alice")], true⟩]
    ⟨"b", [("name", PyVal.int 7)], true⟩
    [⟨"c", [("name", PyVal.str "Carol")], true⟩] true _ _
    (by intro d hd; rw [List.mem_singleton] at hd; subst hd; rfl)
    rfl

theorem toDictLoop_lookup (docs : List DocumentSnapshot) (b : Bool)
    (res : Record) (k : String) :
    dictGet (toDictLoop docs b res) k =
      match docs.reverse.find? (fun d => d.id == k) with
      | some d => some (PyVal.dict (shapedItem d b))
      | none => dictGet res k := by
  induction docs generalizing res with
  | nil => simp [toDictLoop]
  | cons doc rest ih =>
    rw [show toDictLoop (doc :: rest) b res =
          toDictLoop rest b
            (dictUpdate res [(doc.id, PyVal.dict (shapedItem doc b))]) from by
        rw [toDictLoop]
        rfl]
    rw [ih, List.reverse_cons, List.find?_append]
    cases hfind : rest.reverse.find? (fun d => d.id == k) with
    | some d => simp [hfind]
    | none =>
      by_cases hk : doc.id = k
      · simp only [hfind, Option.none_or, List.find?_singleton, hk,
          beq_self_eq_true, if_true]
        show dictGet (dictUpdate res [(k, PyVal.dict (shapedItem doc b))]) k = _
        simp [dictUpdate, dictGet_dictSet_self]
      · simp only [hfind, Option.none_or, List.find?_singleton]
        rw [if_neg (by simp [hk])]
        show dictGet (dictUpdate res [(doc.id, PyVal.dict (shapedItem doc b))]) k
            = dictGet res k
        simp [dictUpdate, dictGet_dictSet_ne _ _ _ _ hk]

/-- C4: refuted — `to_dict` accepts `class_ref` but never reads it: with a
caller type that successfully constructs `"OBJ"` from the record, the stored
value is still the raw record mapping, not the constructed instance. -/
theorem c4_counterexample :
    FirestoreMultiResult.to_dict ⟨[⟨"a", [("name", PyVal.str "Alice")], true⟩]⟩
        false (some (fun _ => .ok (PyVal.str "OBJ"))) =
      [("a", PyVal.dict [("name", PyVal.str "Alice")])] ∧
    (fun (_ : Record) => (Except.ok (PyVal.str "OBJ") : Except String PyVal))
        [("name", PyVal.str "Alice")] = .ok (PyVal.str "OBJ") ∧
    PyVal.dict [("name", PyVal.str "Alice")] ≠ PyVal.str "OBJ" :=
  ⟨rfl, rfl, fun h => PyVal.noConfusion h⟩

/-- C4 amended: `to_dict(append_id, class_ref)` ignores `class_ref` entirely:
the result is identical with any caller type or with none, and every stored
value is the raw (only possibly id-injected) record mapping of the last
record with that id — never a `class_ref` instance. -/
theorem c4_amended_to_dict_ignores_classref (raw : List DocumentSnapshot)
    (b : Bool) (cr : ClassRef) (k : String) :
    FirestoreMultiResult.to_dict ⟨raw⟩ b (some cr) =
      FirestoreMultiResult.to_dict ⟨raw⟩ b none ∧
    dictGet (FirestoreMultiResult.to_dict ⟨raw⟩ b (some cr)) k =
      (match raw.reverse.find? (fun d => d.id == k) with
        | some d => some (PyVal.dict (shapedItem d b))
        | none => none) := by
  refine ⟨rfl, ?_⟩
  rw [show FirestoreMultiResult.to_dict ⟨raw⟩ b (some cr) =
        toDictLoop raw b [] from rfl]
  rw [toDictLoop_lookup]
  cases raw.reverse.find? (fun d => d.id == k) <;> rfl

/-- C8: refuted in one corner — `to_dict(append_id=false)` stores the record
mapping unchanged, so a record that itself carries a `docId` field yields a
value mapping that does contain a `docId` key. -/
theorem c8_counterexample :
    FirestoreMultiResult.to_dict
        ⟨[⟨"a", [("docId", PyVal.str "sneaky")], true⟩]⟩ false none =
      [("a", PyVal.dict [("docId", PyVal.str "sneaky")])] ∧
    dictGet [("docId", PyVal.str "sneaky")] "docId" =
      some (PyVal.str "sneaky") :=
  ⟨rfl, rfl⟩

/-- C8 amended: the key of `to_dict(append_id=false)` under `k` is populated
exactly when some retrieved record has id `k`; on duplicate ids the later
record silently overwrites the earlier (last-write-wins); and the stored value
is that record's raw mapping unchanged — `to_dict` injects no `docId` key, so
a value contains one only if the record itself does. -/
theorem c8_amended_to_dict_keys (raw : List DocumentSnapshot) (k : String) :
    dictGet (FirestoreMultiResult.to_dict ⟨raw⟩ false none) k =
      (match raw.reverse.find? (fun d => d.id == k) with
        | some d => some (PyVal.dict d.record)
        | none => none) ∧
    ((dictGet (FirestoreMultiResult.to_dict ⟨raw⟩ false none) k).isSome ↔
      k ∈ raw.map (fun d => d.id)) := by
  have hchar : dictGet (FirestoreMultiResult.to_dict ⟨raw⟩ false none) k =
      (match raw.reverse.find? (fun d => d.id == k) with
        | some d => some (PyVal.dict d.record)
        | none => none) := by
    rw [show FirestoreMultiResult.to_dict ⟨raw⟩ false none =
          toDictLoop raw false [] from rfl]
    rw [toDictLoop_lookup]
    cases raw.reverse.find? (fun d => d.id == k) <;> simp [shapedItem, dictGet]
  refine ⟨hchar, ?_⟩
  rw [hchar]
  cases hfind : raw.reverse.find? (fun d => d.id == k) with
  | some d =>
    simp only [Option.isSome_some, true_iff]
    have hmem := List.mem_of_find?_eq_some hfind
    have hpred := List.find?_some hfind
    rw [List.mem_reverse] at hmem
    exact List.mem_map.mpr ⟨d, hmem, by simpa using hpred⟩
  | none =>
    simp only [Option.isSome_none, Bool.false_eq_true, false_iff]
    intro hk
    obtain ⟨d, hd, hdk⟩ := List.mem_map.mp hk
    have : raw.reverse.find? (fun d => d.id == k) ≠ none := by
      rw [ne_eq, List.find?_eq_none]
      push_neg
      exact ⟨d, List.mem_reverse.mpr hd, by simp [hdk]⟩
    exact this hfind

/-- C2: refuted — the stream is capped with `.limit(1)` before the id filter,
so a record with the requested id later in the group's stream is missed: null
is returned even though the group has a record with that id. -/
theorem c2_counterexample :
    FirestoreCollectionGroup.get_first_from_stream
        [⟨"a", [], true⟩, ⟨"b", [], true⟩] "b" = none ∧
    ∃ d ∈ ([⟨"a", [], true⟩, ⟨"b", [], true⟩] : List DocumentSnapshot),
      d.id = "b" :=
  ⟨rfl, ⟨"b", [], true⟩, by simp, rfl⟩

/-- C2 amended: `get_first_from_stream(id)` scans the group's stream capped to
one result: it returns the stream's first record exactly when that record's id
equals the given id, and a null result otherwise — even when a later record in
the group has the id. -/
theorem c2_amended_get_first_capped (stream : List DocumentSnapshot)
    (docId : String) (hex : ∀ d ∈ stream, d.exists_ = true) :
    FirestoreCollectionGroup.get_first_from_stream stream docId =
      match stream.head? with
      | some d => if d.id = docId then some ⟨d⟩ else none
      | none => none := by
  cases stream with
  | nil => rfl
  | cons d rest =>
    have hd := hex d (by simp)
    by_cases hid : d.id = docId
    · simp [FirestoreCollectionGroup.get_first_from_stream, hid, hd]
    · simp [FirestoreCollectionGroup.get_first_from_stream, hid]

/-- C2 amended, witness: the head's id matches, so it is returned. -/
theorem c2_amended_get_first_capped_witness :
    FirestoreCollectionGroup.get_first_from_stream
        [⟨"a", [], true⟩, ⟨"b", [], true⟩] "a" =
      match ([⟨"a", [], true⟩, ⟨"b", [], true⟩] :
          List DocumentSnapshot).head? with
      | some d => if d.id = "a" then some ⟨d⟩ else none
      | none => none :=
  c2_amended_get_first_capped _ _ (by decide)

/-- C5: refuted in its scenario — the constructed path is
`parent_path + "/" + id = "users/a/p1"`, not `"users/a/posts/p1"` (the group
name is not inserted), so a document present at `users/a/posts/p1` is not
found by `get_one("p1", "users/a")`. -/
theorem c5_counterexample :
    FirestoreCollectionGroup.get_one
        (fun p => if p = "users/a/posts/p1"
          then some [("title", PyVal.str "t")] else none)
        "p1" "users/a" = none ∧
    ("users/a" ++ "/" ++ "p1") = "users/a/p1" ∧
    ("users/a/p1" : String) ≠ "users/a/posts/p1" :=
  ⟨rfl, rfl, by decide⟩

/-- C5 amended: `get_one(id, parentPath)` and `update(id, parentPath, u)`
operate on exactly the reference `parentPath + "/" + id` — the group name is
NOT inserted, so `users/a/posts/p1` is reached with
`parentPath = "users/a/posts"`. A present document is returned / updated in
place; an absent one yields null without raising for `get_one` and a
`NotFound` error for `update`; no other path is consulted or modified. -/
theorem c5_amended_point_ops (store : Store) (docId parent_path : String) :
    (store (parent_path ++ "/" ++ docId) = none →
      FirestoreCollectionGroup.get_one store docId parent_path = none ∧
      ∀ u, FirestoreCollectionGroup.update store docId parent_path u =
        .error "NotFound") ∧
    (∀ r, store (parent_path ++ "/" ++ docId) = some r →
      FirestoreCollectionGroup.get_one store docId parent_path =
        some ⟨⟨docId, r, true⟩⟩ ∧
      ∀ u, ∃ store1,
        FirestoreCollectionGroup.update store docId parent_path u =
          .ok store1 ∧
        store1 (parent_path ++ "/" ++ docId) = some (dictUpdate r u) ∧
        ∀ p, p ≠ parent_path ++ "/" ++ docId → store1 p = store p) := by
  constructor
  · intro habs
    refine ⟨?_, fun u => ?_⟩
    · simp [FirestoreCollectionGroup.get_one, Store.getDoc, habs]
    · simp [FirestoreCollectionGroup.update, habs]
  · intro r hr
    refine ⟨?_, fun u => ?_⟩
    · simp [FirestoreCollectionGroup.get_one, Store.getDoc, hr]
    · refine ⟨fun p => if p = parent_path ++ "/" ++ docId
          then some (dictUpdate r u) else store p, ?_, ?_, ?_⟩
      · simp [FirestoreCollectionGroup.update, hr]
      · simp
      · intro p hp
        simp [hp]

/-- C5 amended, witness: with the group name included in the parent path, the
document at `users/a/posts/p1` is found. -/
theorem c5_amended_point_ops_witness :
    FirestoreCollectionGroup.get_one
        (fun p => if p = "users/a/posts/p1"
          then some [("title", PyVal.str "t")] else none)
        "p1" "users/a/posts" =
      some ⟨⟨"p1", [("title", PyVal.str "t")], true⟩⟩ :=
  ((c5_amended_point_ops
      (fun p => if p = "users/a/posts/p1"
        then some [("title", PyVal.str "t")] else none)
      "p1" "users/a/posts").2 [("title", PyVal.str "t")] rfl).1

theorem runCalls_stream_unchanged (calls : List MRCall)
    (m : FirestoreMultiResult) (w : DocStream) :
    (runCalls calls m w).2 = w := by
  induction calls with
  | nil => rfl
  | cons c cs ih => simpa [runCalls] using ih

theorem runCalls_outputs (calls : List MRCall) (m : FirestoreMultiResult)
    (w : DocStream) :
    (runCalls calls m w).1 = calls.map (runCall m) := by
  induction calls with
  | nil => rfl
  | cons c cs ih => simpa [runCalls] using ih

/-- C9: `FirestoreMultiResult` materializes its stream once at construction:
`raw` is exactly the stream's content, precisely one pass of the single-pass
stream is consumed, and any sequence of `to_list`/`to_dict` calls leaves the
stream untouched while returning outputs that are a pure function of `raw` —
so repeated identical calls, in any combination, return identical results
without re-fetching. -/
theorem c9_materialize_once (s : DocStream) (calls : List MRCall)
    (h : s.passes = 0) :
    (FirestoreMultiResult.init s).1.raw = s.items ∧
    (FirestoreMultiResult.init s).2.passes = 1 ∧
    (runCalls calls (FirestoreMultiResult.init s).1
        (FirestoreMultiResult.init s).2).2 = (FirestoreMultiResult.init s).2 ∧
    (runCalls calls (FirestoreMultiResult.init s).1
        (FirestoreMultiResult.init s).2).1 =
      calls.map (runCall (FirestoreMultiResult.init s).1) ∧
    (∀ c1 c2, c1 ∈ calls → c2 ∈ calls → c1 = c2 →
      runCall (FirestoreMultiResult.init s).1 c1 =
        runCall (FirestoreMultiResult.init s).1 c2) :=
  ⟨by simp [FirestoreMultiResult.init, DocStream.consume, h],
   by simp [FirestoreMultiResult.init, DocStream.consume, h],
   runCalls_stream_unchanged _ _ _,
   runCalls_outputs _ _ _,
   fun c1 c2 _ _ hc => by rw [hc]⟩

/-- C9 witness: a one-record stream shaped by an interleaving of three calls. -/
theorem c9_materialize_once_witness :
    (FirestoreMultiResult.init
        ⟨[⟨"a", [("x", PyVal.int 1)], true⟩], 0⟩).1.raw =
      [⟨"a", [("x", PyVal.int 1)], true⟩] ∧
    (FirestoreMultiResult.init
        ⟨[⟨"a", [("x", PyVal.int 1)], true⟩], 0⟩).2.passes = 1 ∧
    (runCalls [MRCall.listCall true none, MRCall.dictCall false none,
        MRCall.listCall true none]
      (FirestoreMultiResult.init
        ⟨[⟨"a", [("x", PyVal.int 1)], true⟩], 0⟩).1
      (FirestoreMultiResult.init
        ⟨[⟨"a", [("x", PyVal.int 1)], true⟩], 0⟩).2).2 =
      (FirestoreMultiResult.init
        ⟨[⟨"a", [("x", PyVal.int 1)], true⟩], 0⟩).2 ∧
    (runCalls [MRCall.listCall true none, MRCall.dictCall false none,
        MRCall.listCall true none]
      (FirestoreMultiResult.init
        ⟨[⟨"a", [("x", PyVal.int 1)], true⟩], 0⟩).1
      (FirestoreMultiResult.init
        ⟨[⟨"a", [("x", PyVal.int 1)], true⟩], 0⟩).2).1 =
      [MRCall.listCall true none, MRCall.dictCall false none,
        MRCall.listCall true none].map
        (runCall (FirestoreMultiResult.init
          ⟨[⟨"a", [("x", PyVal.int 1)], true⟩], 0⟩).1) ∧
    (∀ c1 c2,
      c1 ∈ [MRCall.listCall true none, MRCall.dictCall false none,
        MRCall.listCall true none] →
      c2 ∈ [MRCall.listCall true none, MRCall.dictCall false none,
        MRCall.listCall true none] →
      c1 = c2 →
      runCall (FirestoreMultiResult.init
        ⟨[⟨"a", [("x", PyVal.int 1)], true⟩], 0⟩).1 c1 =
      runCall (FirestoreMultiResult.init
        ⟨[⟨"a", [("x", PyVal.int 1)], true⟩], 0⟩).1 c2) :=
  c9_materialize_once ⟨[⟨"a", [("x", PyVal.int 1)], true⟩], 0⟩
    [MRCall.listCall true none, MRCall.dictCall false none,
      MRCall.listCall true none] rfl

end GcpHelpers
